import Mathlib

/-!
# FinSight-AI front-end core: verification development

Shallow embedding of the document-status synchronization and risk-resolution
workflow of the FinSight-AI front end, together with proofs and refutations of
the specified properties.

The embedding follows the source files:
* `src/frontend/src/app/documents/[id]/page.tsx` (document detail page:
  `loadDocument`, the polling `useEffect`, the mount/cleanup `useEffect`,
  `handleExportReport`, `handleResolveAlert`, `handleDelete`),
* `src/unnamed/part_001` (documents listing page: `page`/`total` state,
  `loadDocuments`, pagination controls),
* `src/frontend/src/app/search/page.tsx` (`handleSearch`),
* `src/frontend/src/app/alerts/page.tsx` (`handleResolve` and the
  Dismiss/Resolve buttons).

React semantics used by the embedding: every `setState` call triggers a
re-render; after a render, an effect hook runs exactly when its dependency
array changed with respect to the previous render; the cleanup of the
`[id]` effect runs when the observed id changes.  The event loop is
single-threaded: timer callbacks and fetch continuations run to completion.
-/

namespace FinSight

/-- Document lifecycle status, `status ∈ {UPLOADED, PROCESSING, COMPLETED, FAILED}`. -/
inductive DocStatus : Type
  | uploaded
  | processing
  | completed
  | failed
deriving DecidableEq, Repr

/-- Terminal statuses: `COMPLETED` and `FAILED`.  The polling `useEffect` at
lines 90-103 arms the poller exactly on the complement
(`status === 'PROCESSING' || status === 'UPLOADED'`). -/
def DocStatus.isTerminal : DocStatus → Bool
  | .uploaded => false
  | .processing => false
  | .completed => true
  | .failed => true

/-- A fetched document snapshot, as applied by `setDocument`.  Only the
lifecycle status matters to the poller; `payload` stands for the rest of the
`DocumentDetail` record and distinguishes snapshots from different fetches. -/
structure Doc where
  status : DocStatus
  payload : Nat
deriving DecidableEq, Repr

/-- An in-flight `apiClient.getDocument` request issued by `loadDocument`.
`fid` is the issuance index (position in issue order), `target` the document
id it was issued for (the render-time `id` captured by the closure). -/
structure Fetch where
  fid : Nat
  target : Nat
deriving DecidableEq, Repr

/-- View state of `DocumentDetailPage` plus the bookkeeping needed to observe
timers and in-flight fetches.

* `curId` — the current `params.id`.
* `doc` — the `document` state (`null` initially).
* `errorSet` — whether the `error` state string is non-empty (it is set by
  `setError` and never cleared on this page).
* `refNonNull` — whether `pollingInterval.current` is non-null.
* `refLive` — whether the interval object stored in `pollingInterval.current`
  is still scheduled (an interval can be cleared while the ref keeps
  pointing at it, as in the `catch` branch of `loadDocument`).
* `liveTimers` — the total number of currently scheduled intervals.
* `depStatus` — the value of the polling effect's dependency
  `document?.status` at the last render.
* `inFlight` — fetches issued but not yet resolved.
* `nextFid` — issuance counter.
* `staleMutations` — number of `setDocument`/`setError` calls performed by
  the continuation of a fetch whose target id is no longer the observed id. -/
structure PageState where
  curId : Nat
  doc : Option Doc
  errorSet : Bool
  refNonNull : Bool
  refLive : Bool
  liveTimers : Nat
  depStatus : Option DocStatus
  inFlight : List Fetch
  nextFid : Nat
  staleMutations : Nat
deriving DecidableEq, Repr

/-- `clearInterval(pollingInterval.current)`: unschedules the referenced
interval if it is still scheduled; clearing an already-cleared interval is a
no-op.  The ref itself is not modified here. -/
def clearRef (s : PageState) : PageState :=
  if s.refLive then
    { s with refLive := false, liveTimers := s.liveTimers - 1 }
  else s

/-- Body of the polling `useEffect` (page.tsx lines 90-103):
if `document?.status` is `'PROCESSING'` or `'UPLOADED'`, arm an interval
unless `pollingInterval.current` is already non-null; otherwise clear the
referenced interval and null the ref. -/
def runPollingEffect (s : PageState) : PageState :=
  match s.doc with
  | some d =>
    if d.status.isTerminal then
      if s.refNonNull then { clearRef s with refNonNull := false } else s
    else
      if s.refNonNull then s
      else { s with refNonNull := true, refLive := true,
                    liveTimers := s.liveTimers + 1 }
  | none =>
    if s.refNonNull then { clearRef s with refNonNull := false } else s

/-- A render commit: React re-runs the polling effect exactly when its
dependency `[document?.status]` changed relative to the previous render. -/
def commit (s : PageState) : PageState :=
  let dep := s.doc.map (·.status)
  if dep = s.depStatus then s
  else { runPollingEffect s with depStatus := dep }

/-- `loadDocument` issues `apiClient.getDocument(id)` for the currently
observed id and registers the in-flight request. -/
def issueFetch (s : PageState) : PageState :=
  { s with inFlight := s.inFlight ++ [⟨s.nextFid, s.curId⟩],
           nextFid := s.nextFid + 1 }

/-- Events of the document detail page:
* `tick` — a scheduled interval fires and its callback runs
  `loadDocument(false)`;
* `arriveOk fid d` — the in-flight fetch `fid` resolves with snapshot `d`
  (the `try` branch of `loadDocument` runs: `setDocument(data)`);
* `arriveErr fid` — the in-flight fetch `fid` rejects (the `catch` branch
  runs: `setError(...)` and `clearInterval(pollingInterval.current)`);
* `nav j` — `params.id` changes to `j`: the `[id]` effect cleanup clears the
  referenced interval, then the effect body runs `loadDocument(true)`. -/
inductive Event : Type
  | tick
  | arriveOk (fid : Nat) (d : Doc)
  | arriveErr (fid : Nat)
  | nav (j : Nat)
deriving DecidableEq, Repr

/-- One step of the detail-page machine.  Arrival events for fetches that are
not in flight are no-ops (each response resumes its own request exactly
once). -/
def step (s : PageState) : Event → PageState
  | .tick =>
    if 0 < s.liveTimers then issueFetch s else s
  | .arriveOk fid d =>
    match s.inFlight.find? (fun g => g.fid == fid) with
    | none => s
    | some f =>
      commit { s with
        inFlight := s.inFlight.filter (fun g => g.fid ≠ fid),
        doc := some d,
        staleMutations :=
          s.staleMutations + (if f.target = s.curId then 0 else 1) }
  | .arriveErr fid =>
    match s.inFlight.find? (fun g => g.fid == fid) with
    | none => s
    | some f =>
      commit { clearRef s with
        inFlight := s.inFlight.filter (fun g => g.fid ≠ fid),
        errorSet := true,
        staleMutations :=
          s.staleMutations + (if f.target = s.curId then 0 else 1) }
  | .nav j =>
    commit (issueFetch { clearRef s with curId := j })

/-- Initial state of a mount observing document id `i0`: the first render has
`document = null`; the `[id]` effect issues `loadDocument(true)` (fetch 0) and
the polling effect runs once with `document?.status = undefined`, a no-op. -/
def init (i0 : Nat) : PageState :=
  { curId := i0, doc := none, errorSet := false, refNonNull := false,
    refLive := false, liveTimers := 0, depStatus := none,
    inFlight := [⟨0, i0⟩], nextFid := 1, staleMutations := 0 }

/-- Run a schedule of events from a given state. -/
def runFrom (s : PageState) (evs : List Event) : PageState :=
  evs.foldl step s

/-- Run a schedule of events from a fresh mount observing `i0`. -/
def run (i0 : Nat) (evs : List Event) : PageState :=
  runFrom (init i0) evs

/-! ## Structural lemmas about the detail-page machine -/

theorem runPollingEffect_preserves (s : PageState) :
    (runPollingEffect s).doc = s.doc ∧
    (runPollingEffect s).errorSet = s.errorSet ∧
    (runPollingEffect s).inFlight = s.inFlight ∧
    (runPollingEffect s).nextFid = s.nextFid ∧
    (runPollingEffect s).curId = s.curId ∧
    (runPollingEffect s).staleMutations = s.staleMutations ∧
    (runPollingEffect s).depStatus = s.depStatus := by
  simp only [runPollingEffect, clearRef]
  repeat' split
  all_goals simp

theorem commit_doc (s : PageState) : (commit s).doc = s.doc := by
  simp only [commit]
  split
  · rfl
  · exact (runPollingEffect_preserves s).1

theorem commit_staleMutations (s : PageState) :
    (commit s).staleMutations = s.staleMutations := by
  simp only [commit]
  split
  · rfl
  · exact (runPollingEffect_preserves s).2.2.2.2.2.1

theorem commit_curId (s : PageState) : (commit s).curId = s.curId := by
  simp only [commit]
  split
  · rfl
  · exact (runPollingEffect_preserves s).2.2.2.2.1

/-- When the dependency snapshot already matches the document status, the
polling effect is not re-run by the commit. -/
theorem commit_eq_self (t : PageState)
    (h : Option.map (fun d => d.status) t.doc = t.depStatus) : commit t = t := by
  simp only [commit, if_pos h]

theorem clearRef_doc (s : PageState) : (clearRef s).doc = s.doc := by
  simp only [clearRef]
  split <;> rfl

theorem clearRef_depStatus (s : PageState) :
    (clearRef s).depStatus = s.depStatus := by
  simp only [clearRef]
  split <;> rfl

theorem clearRef_refNonNull (s : PageState) :
    (clearRef s).refNonNull = s.refNonNull := by
  simp only [clearRef]
  split <;> rfl

/-- Core timer invariant: the single ref can point at most at one scheduled
interval, and every scheduled interval is the one the ref points at; the
polling effect's dependency snapshot agrees with the current document
status. -/
def Inv (s : PageState) : Prop :=
  s.liveTimers = (if s.refLive then 1 else 0) ∧
  (s.refLive = true → s.refNonNull = true) ∧
  s.depStatus = s.doc.map (fun d => d.status)

theorem inv_commit (t : PageState)
    (h1 : t.liveTimers = (if t.refLive then 1 else 0))
    (h2 : t.refLive = true → t.refNonNull = true) :
    Inv (commit t) := by
  have hp := runPollingEffect_preserves t
  simp only [commit]
  split
  · rename_i hdep
    exact ⟨h1, h2, hdep.symm⟩
  · refine ⟨?_, ?_, ?_⟩
    · show (runPollingEffect t).liveTimers =
        if (runPollingEffect t).refLive = true then 1 else 0
      simp only [runPollingEffect, clearRef]
      repeat' split
      all_goals simp_all
    · show (runPollingEffect t).refLive = true →
        (runPollingEffect t).refNonNull = true
      simp only [runPollingEffect, clearRef]
      repeat' split
      all_goals simp_all
    · show Option.map (fun d => d.status) t.doc =
        Option.map (fun d => d.status) (runPollingEffect t).doc
      rw [hp.1]

theorem inv_init (i0 : Nat) : Inv (init i0) := by
  refine ⟨rfl, ?_, rfl⟩
  intro h
  simp [init] at h

theorem inv_step (s : PageState) (hs : Inv s) (e : Event) : Inv (step s e) := by
  obtain ⟨h1, h2, h3⟩ := hs
  cases e with
  | tick =>
    simp only [step]
    split
    · exact ⟨h1, h2, h3⟩
    · exact ⟨h1, h2, h3⟩
  | arriveOk fid d =>
    simp only [step]
    cases hf : s.inFlight.find? (fun g => g.fid == fid) with
    | none => exact ⟨h1, h2, h3⟩
    | some f => exact inv_commit _ h1 h2
  | arriveErr fid =>
    simp only [step]
    cases hf : s.inFlight.find? (fun g => g.fid == fid) with
    | none => exact ⟨h1, h2, h3⟩
    | some f =>
      apply inv_commit
      · show (clearRef s).liveTimers = if (clearRef s).refLive = true then 1 else 0
        simp only [clearRef]
        split <;> simp_all
      · show (clearRef s).refLive = true → (clearRef s).refNonNull = true
        simp only [clearRef]
        split <;> simp_all
  | nav j =>
    simp only [step]
    apply inv_commit
    · show (clearRef s).liveTimers = if (clearRef s).refLive = true then 1 else 0
      simp only [clearRef]
      split <;> simp_all
    · show (clearRef s).refLive = true → (clearRef s).refNonNull = true
      simp only [clearRef]
      split <;> simp_all

theorem inv_runFrom (s : PageState) (hs : Inv s) (evs : List Event) :
    Inv (runFrom s evs) := by
  induction evs generalizing s with
  | nil => exact hs
  | cons e evs ih => exact ih _ (inv_step s hs e)

theorem inv_run (i0 : Nat) (evs : List Event) : Inv (run i0 evs) :=
  inv_runFrom _ (inv_init i0) evs

/-! ## Failure-free observation of a single document -/

/-- An event of an observation during which no fetch fails and the observed
id does not change: timer ticks and successful arrivals only. -/
def Event.isQuiet : Event → Bool
  | .tick => true
  | .arriveOk _ _ => true
  | .arriveErr _ => false
  | .nav _ => false

/-- Whether the polling effect wants a timer for a given value of its
dependency `document?.status`: exactly the non-terminal statuses. -/
def pollWanted : Option DocStatus → Bool
  | some st => !st.isTerminal
  | none => false

/-- Strengthened invariant that holds along failure-free single-id schedules:
the ref is live exactly when it is non-null, and it is live exactly when the
last committed document status is non-terminal. -/
def QInv (s : PageState) : Prop :=
  Inv s ∧ s.refNonNull = s.refLive ∧ s.refLive = pollWanted s.depStatus

theorem qinv_init (i0 : Nat) : QInv (init i0) :=
  ⟨inv_init i0, rfl, rfl⟩

theorem rpe_establishes (t : PageState) (d : Doc) (hdoc : t.doc = some d)
    (h4 : t.refNonNull = t.refLive) :
    (runPollingEffect t).refNonNull = (runPollingEffect t).refLive ∧
    (runPollingEffect t).refLive = !d.status.isTerminal := by
  simp only [runPollingEffect, clearRef, hdoc]
  repeat' split
  all_goals simp_all

theorem qinv_step (s : PageState) (hs : QInv s) (e : Event)
    (he : e.isQuiet = true) : QInv (step s e) := by
  obtain ⟨⟨h1, h2, h3⟩, h4, h5⟩ := hs
  cases e with
  | arriveErr fid => simp [Event.isQuiet] at he
  | nav j => simp [Event.isQuiet] at he
  | tick =>
    simp only [step]
    split
    · exact ⟨⟨h1, h2, h3⟩, h4, h5⟩
    · exact ⟨⟨h1, h2, h3⟩, h4, h5⟩
  | arriveOk fid d =>
    simp only [step]
    cases hf : s.inFlight.find? (fun g => g.fid == fid) with
    | none => exact ⟨⟨h1, h2, h3⟩, h4, h5⟩
    | some f =>
      refine ⟨inv_commit _ h1 h2, ?_⟩
      simp only [commit]
      split
      · rename_i hdep
        refine ⟨h4, ?_⟩
        show s.refLive = pollWanted s.depStatus
        exact h5
      · have hre := rpe_establishes
          { s with
            inFlight := s.inFlight.filter (fun g => g.fid ≠ fid),
            doc := some d,
            staleMutations :=
              s.staleMutations + (if f.target = s.curId then 0 else 1) }
          d rfl h4
        exact ⟨hre.1, hre.2⟩

theorem qinv_runFrom (s : PageState) (hs : QInv s) (evs : List Event)
    (hq : evs.all Event.isQuiet = true) : QInv (runFrom s evs) := by
  induction evs generalizing s with
  | nil => exact hs
  | cons e evs ih =>
    rw [List.all_cons, Bool.and_eq_true] at hq
    exact ih _ (qinv_step s hs e hq.1) hq.2

/-! ## Disarmed-after-failure states -/

/-- Events that keep a failure-disarmed observation disarmed: timer ticks
(no timer is live, so they are no-ops), further failures, and successful
arrivals whose snapshot has non-terminal status.  An applied terminal
snapshot or an id change is excluded: both run the else branch of the
polling effect (resp. the cleanup), which resets `pollingInterval.current`. -/
def Event.keepsDisarmed : Event → Bool
  | .tick => true
  | .arriveErr _ => true
  | .arriveOk _ d => !d.status.isTerminal
  | .nav _ => false

/-- The state left behind by the `catch` branch of `loadDocument` after a
poll failure: the interval has been cleared but `pollingInterval.current`
still points at it, so the arming guard `!pollingInterval.current` blocks. -/
def Disarmed (s : PageState) : Prop :=
  s.refNonNull = true ∧ s.refLive = false ∧ s.liveTimers = 0 ∧
  s.depStatus = s.doc.map (fun d => d.status)

theorem rpe_noop_nonterminal (t : PageState) (d : Doc) (hdoc : t.doc = some d)
    (hnt : d.status.isTerminal = false) (hr : t.refNonNull = true) :
    runPollingEffect t = t := by
  simp [runPollingEffect, hdoc, hnt, hr]

theorem disarmed_commit_of_dep (t : PageState) (ht : Disarmed t) :
    Disarmed (commit t) := by
  obtain ⟨h1, h2, h3, h4⟩ := ht
  rw [commit_eq_self t h4.symm]
  exact ⟨h1, h2, h3, h4⟩

theorem disarmed_step (s : PageState) (hs : Disarmed s) (e : Event)
    (he : e.keepsDisarmed = true) : Disarmed (step s e) := by
  obtain ⟨h1, h2, h3, h4⟩ := hs
  cases e with
  | nav j => simp [Event.keepsDisarmed] at he
  | tick =>
    have hlt : ¬ 0 < s.liveTimers := by omega
    simp only [step, if_neg hlt]
    exact ⟨h1, h2, h3, h4⟩
  | arriveErr fid =>
    simp only [step]
    cases hf : s.inFlight.find? (fun g => g.fid == fid) with
    | none => exact ⟨h1, h2, h3, h4⟩
    | some f =>
      dsimp only
      have hcl : clearRef s = s := by simp [clearRef, h2]
      rw [hcl]
      exact disarmed_commit_of_dep _ ⟨h1, h2, h3, h4⟩
  | arriveOk fid d =>
    simp only [Event.keepsDisarmed, Bool.not_eq_eq_eq_not, Bool.not_true] at he
    simp only [step]
    cases hf : s.inFlight.find? (fun g => g.fid == fid) with
    | none => exact ⟨h1, h2, h3, h4⟩
    | some f =>
      simp only [commit]
      split
      · rename_i hdep
        exact ⟨h1, h2, h3, hdep.symm⟩
      · have hrpe := rpe_noop_nonterminal
          { s with
            inFlight := s.inFlight.filter (fun g => g.fid ≠ fid),
            doc := some d,
            staleMutations :=
              s.staleMutations + (if f.target = s.curId then 0 else 1) }
          d rfl he h1
        rw [hrpe]
        exact ⟨h1, h2, h3, rfl⟩

theorem disarmed_runFrom (s : PageState) (hs : Disarmed s) (evs : List Event)
    (hk : evs.all Event.keepsDisarmed = true) : Disarmed (runFrom s evs) := by
  induction evs generalizing s with
  | nil => exact hs
  | cons e evs ih =>
    rw [List.all_cons, Bool.and_eq_true] at hk
    exact ih _ (disarmed_step s hs e hk.1) hk.2

/-- A successful arrival of an in-flight fetch applies its snapshot via
`setDocument`, unconditionally. -/
theorem arriveOk_sets_doc (s : PageState) (fid : Nat) (d : Doc) (f : Fetch)
    (hf : s.inFlight.find? (fun g => g.fid == fid) = some f) :
    (step s (.arriveOk fid d)).doc = some d := by
  simp only [step, hf]
  rw [commit_doc]

/-- A successful arrival of an in-flight fetch whose target id is no longer
observed still mutates view state. -/
theorem arriveOk_stale_increment (s : PageState) (fid : Nat) (d : Doc)
    (f : Fetch)
    (hf : s.inFlight.find? (fun g => g.fid == fid) = some f)
    (ht : f.target ≠ s.curId) :
    (step s (.arriveOk fid d)).staleMutations = s.staleMutations + 1 := by
  simp only [step, hf]
  rw [commit_staleMutations]
  simp [ht]

/-! ## Claim C1 -/

/-- C1, counterexample.  `loadDocument` carries no sequence number and applies
every arriving result unconditionally, so the claimed last-issued-wins
discipline fails.  Schedule: the mount fetch resolves with PROCESSING
(arming the poller); two poll ticks issue fetch A (fid 1, payload 11) and
then fetch B (fid 2, payload 22); at that point both are in flight; B's
result arrives before A's, yet the state applied after both resolve is A's
snapshot (payload 11), not B's. -/
theorem c1_counterexample_last_arrival_overwrites :
    (run 0 [Event.arriveOk 0 ⟨.processing, 1⟩, .tick, .tick]).inFlight
      = [⟨1, 0⟩, ⟨2, 0⟩] ∧
    (run 0 [Event.arriveOk 0 ⟨.processing, 1⟩, .tick, .tick,
            .arriveOk 2 ⟨.processing, 22⟩, .arriveOk 1 ⟨.processing, 11⟩]).doc
      = some ⟨.processing, 11⟩ ∧
    (run 0 [Event.arriveOk 0 ⟨.processing, 1⟩, .tick, .tick,
            .arriveOk 2 ⟨.processing, 22⟩, .arriveOk 1 ⟨.processing, 11⟩]).doc
      ≠ some ⟨.processing, 22⟩ := by
  decide

/-- C1, amended.  Reconciliation on the document detail page is
last-arrived-wins, not last-issued-wins: whenever an in-flight
`getDocument` result arrives, `setDocument` applies it unconditionally, so
the applied state always equals the snapshot of the fetch that resolved
most recently, regardless of issuance order. -/
theorem c1_applied_equals_latest_arrival (s : PageState) (fid : Nat) (d : Doc)
    (f : Fetch)
    (hf : s.inFlight.find? (fun g => g.fid == fid) = some f) :
    (step s (.arriveOk fid d)).doc = some d :=
  arriveOk_sets_doc s fid d f hf

/-- C1, witness for the amended theorem at a concrete input. -/
theorem c1_applied_equals_latest_arrival_witness :
    (step (init 0) (.arriveOk 0 ⟨.processing, 5⟩)).doc
      = some ⟨.processing, 5⟩ :=
  c1_applied_equals_latest_arrival (init 0) 0 ⟨.processing, 5⟩ ⟨0, 0⟩ (by decide)

/-! ## Claim C2 -/

/-- C2, counterexample.  The claimed invariant ("immediately after every
applied fetch result, non-terminal status implies an armed timer") fails
once a poll fetch has errored while another fetch was still in flight: after
the mount fetch arms the poller, ticks issue fetches 1 and 2; fetch 2 fails
(the catch branch clears the interval but leaves the ref non-null); fetch
1's result then arrives and is applied with status PROCESSING, yet no timer
is armed. -/
theorem c2_counterexample_invariant_fails_after_poll_error :
    ((run 0 [Event.arriveOk 0 ⟨.processing, 1⟩, .tick, .tick,
             .arriveErr 2]).inFlight.find? (fun g => g.fid == 1))
      = some ⟨1, 0⟩ ∧
    (step (run 0 [Event.arriveOk 0 ⟨.processing, 1⟩, .tick, .tick,
                  .arriveErr 2]) (.arriveOk 1 ⟨.processing, 2⟩)).doc
      = some ⟨.processing, 2⟩ ∧
    (step (run 0 [Event.arriveOk 0 ⟨.processing, 1⟩, .tick, .tick,
                  .arriveErr 2]) (.arriveOk 1 ⟨.processing, 2⟩)).liveTimers
      = 0 := by
  decide

/-- C2, amended.  Along every failure-free observation of a single document
(schedules of timer ticks and successful arrivals only), the claimed poller
invariant holds at every point, in particular immediately after every
applied fetch: non-terminal applied status implies exactly one live timer,
terminal applied status implies none, and `pollingInterval.current` is
non-null exactly when a timer is live. -/
theorem c2_poller_invariant_failure_free (i0 : Nat) (evs : List Event)
    (hq : evs.all Event.isQuiet = true) (d : Doc)
    (hd : (run i0 evs).doc = some d) :
    (run i0 evs).liveTimers = (if d.status.isTerminal then 0 else 1) ∧
    (run i0 evs).refNonNull = !d.status.isTerminal := by
  simp only [run] at hd ⊢
  obtain ⟨⟨h1, h2, h3⟩, h4, h5⟩ := qinv_runFrom _ (qinv_init i0) evs hq
  have h3' : (runFrom (init i0) evs).depStatus = some d.status := by
    rw [h3, hd]
    rfl
  rw [h3'] at h5
  simp only [pollWanted] at h5
  refine ⟨?_, ?_⟩
  · rw [h1, h5]
    cases d.status.isTerminal <;> rfl
  · rw [h4, h5]

/-- C2, witness for the amended theorem: failure-free schedule in which the
mount fetch resolves with PROCESSING; exactly one timer is live. -/
theorem c2_poller_invariant_failure_free_witness :
    (run 0 [Event.arriveOk 0 ⟨.processing, 1⟩]).liveTimers
      = (if DocStatus.processing.isTerminal then 0 else 1) ∧
    (run 0 [Event.arriveOk 0 ⟨.processing, 1⟩]).refNonNull
      = !DocStatus.processing.isTerminal :=
  c2_poller_invariant_failure_free 0 [Event.arriveOk 0 ⟨.processing, 1⟩]
    (by decide) ⟨.processing, 1⟩ (by decide)

/-! ## Claim C3 -/

/-- C3, counterexample.  An in-flight fetch is not discarded at teardown:
after the poller is armed for document 0 and a tick issues fetch 1, the
observation of document 0 is torn down (`params.id` changes to 1, the
cleanup runs); fetch 1's result then arrives and `setDocument` still
applies it — one post-teardown view-state mutation, refuting "no
setDocument occurs after teardown". -/
theorem c3_counterexample_inflight_not_discarded :
    (run 0 [Event.arriveOk 0 ⟨.processing, 1⟩, .tick, .nav 1]).staleMutations
      = 0 ∧
    (run 0 [Event.arriveOk 0 ⟨.processing, 1⟩, .tick, .nav 1,
            .arriveOk 1 ⟨.processing, 5⟩]).staleMutations = 1 ∧
    (run 0 [Event.arriveOk 0 ⟨.processing, 1⟩, .tick, .nav 1,
            .arriveOk 1 ⟨.processing, 5⟩]).doc = some ⟨.processing, 5⟩ := by
  decide

/-- C3, amended.  Teardown of a document observation (`[id]` cleanup)
cancels any armed timer immediately — no timer is live right after the nav
event — but an in-flight `getDocument` fetch is not marked for discard: when
its result arrives its continuation still runs, applying `setDocument`
(a view-state mutation counted by `staleMutations`) even though its target
id is no longer observed. -/
theorem c3_teardown_cancels_timer_but_applies_inflight (i0 : Nat)
    (evs : List Event) (j : Nat) (fid : Nat) (d : Doc) (f : Fetch)
    (hf : (step (run i0 evs) (.nav j)).inFlight.find?
      (fun g => g.fid == fid) = some f)
    (ht : f.target ≠ (step (run i0 evs) (.nav j)).curId) :
    (step (run i0 evs) (.nav j)).liveTimers = 0 ∧
    (step (step (run i0 evs) (.nav j)) (.arriveOk fid d)).doc = some d ∧
    (step (step (run i0 evs) (.nav j)) (.arriveOk fid d)).staleMutations
      = (step (run i0 evs) (.nav j)).staleMutations + 1 := by
  obtain ⟨h1, h2, h3⟩ := inv_run i0 evs
  refine ⟨?_, ?_, ?_⟩
  · show (commit (issueFetch { clearRef (run i0 evs) with curId := j })).liveTimers = 0
    rw [commit_eq_self]
    · show (clearRef (run i0 evs)).liveTimers = 0
      simp only [clearRef]
      split <;> simp_all
    · show Option.map (fun d => d.status) (clearRef (run i0 evs)).doc
        = (clearRef (run i0 evs)).depStatus
      rw [clearRef_doc, clearRef_depStatus, h3]
  · exact arriveOk_sets_doc _ fid d f hf
  · exact arriveOk_stale_increment _ fid d f hf ht

/-- C3, witness for the amended theorem at a concrete schedule: poller armed
for document 0, fetch 1 in flight, navigation to document 1, then fetch 1's
stale result arrives. -/
theorem c3_teardown_cancels_timer_but_applies_inflight_witness :
    (step (run 0 [Event.arriveOk 0 ⟨.processing, 1⟩, .tick])
      (.nav 1)).liveTimers = 0 ∧
    (step (step (run 0 [Event.arriveOk 0 ⟨.processing, 1⟩, .tick]) (.nav 1))
      (.arriveOk 1 ⟨.processing, 5⟩)).doc = some ⟨.processing, 5⟩ ∧
    (step (step (run 0 [Event.arriveOk 0 ⟨.processing, 1⟩, .tick]) (.nav 1))
      (.arriveOk 1 ⟨.processing, 5⟩)).staleMutations
      = (step (run 0 [Event.arriveOk 0 ⟨.processing, 1⟩, .tick])
          (.nav 1)).staleMutations + 1 :=
  c3_teardown_cancels_timer_but_applies_inflight 0
    [Event.arriveOk 0 ⟨.processing, 1⟩, .tick] 1 1 ⟨.processing, 5⟩ ⟨1, 0⟩
    (by decide) (by decide)

/-! ## Claim C10 -/

/-- C10, counterexample.  "No polling timer is ever armed again after a
failed fetch" is refuted by three overlapping poll fetches: fetches 1, 2, 3
are issued while PROCESSING; fetch 3 fails (interval cleared, ref left
non-null, zero timers); fetch 2 then arrives with terminal status COMPLETED,
whose effect run resets the ref to null; fetch 1 finally arrives with
PROCESSING, and the arming effect starts a fresh timer — a timer is armed
after the failure. -/
theorem c10_counterexample_rearm_after_failure :
    (run 0 [Event.arriveOk 0 ⟨.processing, 1⟩, .tick, .tick, .tick,
            .arriveErr 3]).errorSet = true ∧
    (run 0 [Event.arriveOk 0 ⟨.processing, 1⟩, .tick, .tick, .tick,
            .arriveErr 3]).liveTimers = 0 ∧
    (run 0 [Event.arriveOk 0 ⟨.processing, 1⟩, .tick, .tick, .tick,
            .arriveErr 3, .arriveOk 2 ⟨.completed, 2⟩,
            .arriveOk 1 ⟨.processing, 3⟩]).liveTimers = 1 := by
  decide

/-- C10, amended.  From the state left by a poll-fetch failure (interval
cleared, `pollingInterval.current` still non-null), no timer is armed again
as long as the schedule contains only ticks, further failures, and applied
results with non-terminal status: ticks are no-ops with zero live timers,
and the arming guard `!pollingInterval.current` blocks every arming attempt.
The guard is only reset by applying a terminal-status result (or by the
teardown sequence), after which polling can re-arm, as the counterexample
shows. -/
theorem c10_no_rearm_while_nonterminal (s : PageState) (hs : Disarmed s)
    (evs : List Event) (hk : evs.all Event.keepsDisarmed = true) :
    (runFrom s evs).liveTimers = 0 ∧ (runFrom s evs).refNonNull = true := by
  have h := disarmed_runFrom s hs evs hk
  exact ⟨h.2.2.1, h.1⟩

/-- C10, witness for the amended theorem: the reachable post-failure state
after fetch 2 fails, followed by a tick and a non-terminal arrival; still no
live timer. -/
theorem c10_no_rearm_while_nonterminal_witness :
    (runFrom (run 0 [Event.arriveOk 0 ⟨.processing, 1⟩, .tick, .tick,
                     .arriveErr 2])
      [Event.tick, .arriveOk 1 ⟨.processing, 9⟩]).liveTimers = 0 ∧
    (runFrom (run 0 [Event.arriveOk 0 ⟨.processing, 1⟩, .tick, .tick,
                     .arriveErr 2])
      [Event.tick, .arriveOk 1 ⟨.processing, 9⟩]).refNonNull = true :=
  c10_no_rearm_while_nonterminal _
    ⟨by decide, by decide, by decide, by decide⟩
    [Event.tick, .arriveOk 1 ⟨.processing, 9⟩] (by decide)

/-! ## Documents listing controller (src/unnamed/part_001, `DocumentsPage`) -/

/-- View state of `DocumentsPage` relevant to pagination: the 1-based
`page`, the server-reported `total`, and the number of documents in the
current snapshot (which gates the rendering of the pagination controls);
`page_size` is fixed at 20. -/
structure ListState where
  page : Nat
  total : Nat
  docs : Nat
deriving DecidableEq, Repr

/-- `Math.ceil(total / 20)`, the page count shown by the indicator
`Page {page} of {Math.ceil(total / 20)}` and used by the Next guard. -/
def totalPages (total : Nat) : Nat := (total + 19) / 20

/-- Events of the listing controller:
* `applyList k t` — a `loadDocuments` success applies the server response
  (`setDocuments(data.documents)` with `k` items, `setTotal(data.total)`);
* `clickPrev` — the previous button runs `setPage(p => Math.max(1, p - 1))`;
  it is rendered only when the list is non-empty and `total > 20`, and
  disabled when `page === 1`;
* `clickNext` — the next button runs `setPage(p => p + 1)`; same rendering
  condition, disabled when `page >= Math.ceil(total / 20)`. -/
inductive ListEvent : Type
  | applyList (k t : Nat)
  | clickPrev
  | clickNext
deriving DecidableEq, Repr

/-- One step of the listing controller.  Clicks on buttons that are not
rendered or disabled are no-ops (they cannot happen in the browser). -/
def listStep (s : ListState) : ListEvent → ListState
  | .applyList k t => { s with docs := k, total := t }
  | .clickPrev =>
    if 0 < s.docs ∧ 20 < s.total ∧ s.page ≠ 1 then
      { s with page := max 1 (s.page - 1) }
    else s
  | .clickNext =>
    if 0 < s.docs ∧ 20 < s.total ∧ s.page < totalPages s.total then
      { s with page := s.page + 1 }
    else s

/-- Initial state of `DocumentsPage`: `useState(1)` for page, `useState(0)`
for total, empty document list. -/
def listInit : ListState := { page := 1, total := 0, docs := 0 }

/-- Run a schedule of listing events from a fresh mount. -/
def listRun (evs : List ListEvent) : ListState :=
  evs.foldl listStep listInit

/-- A schedule in which the user pages to page 5 of 100 documents and the
collection then shrinks to 20 documents (page 5 is empty): each page change
triggers a re-fetch, the final one returning no documents and `total = 20`. -/
def shrinkSchedule : List ListEvent :=
  [.applyList 20 100, .clickNext, .applyList 20 100, .clickNext,
   .applyList 20 100, .clickNext, .applyList 20 100, .clickNext,
   .applyList 20 100, .applyList 0 20]

theorem listStep_page_ge_one (s : ListState) (h : 1 ≤ s.page) (e : ListEvent) :
    1 ≤ (listStep s e).page := by
  cases e with
  | applyList k t => exact h
  | clickPrev =>
    simp only [listStep]
    split
    · show 1 ≤ max 1 (s.page - 1)
      exact le_max_left 1 _
    · exact h
  | clickNext =>
    simp only [listStep]
    split
    · show 1 ≤ s.page + 1
      omega
    · exact h

theorem listRun_page_ge_one (evs : List ListEvent) : 1 ≤ (listRun evs).page := by
  suffices hgen : ∀ s : ListState, 1 ≤ s.page →
      ∀ l : List ListEvent, 1 ≤ (l.foldl listStep s).page by
    exact hgen listInit (by decide) evs
  intro s hs l
  induction l generalizing s with
  | nil => exact hs
  | cons e l ih => exact ih _ (listStep_page_ge_one s hs e)

/-! ## Claim C4 -/

/-- C4, counterexample.  The claimed clamp does not exist: after paging to
page 5 of 100 documents, a reload that reports `total = 20` leaves `page`
at 5 even though `ceil(total / pageSize) = 1`; no event of the controller
ever moves the page back into range without the user clicking. -/
theorem c4_counterexample_no_clamp_on_shrink :
    (listRun shrinkSchedule).page = 5 ∧
    (listRun shrinkSchedule).total = 20 ∧
    totalPages (listRun shrinkSchedule).total = 1 ∧
    ¬((listRun shrinkSchedule).page
      ≤ totalPages (listRun shrinkSchedule).total) := by
  decide

/-- C4, amended.  The listing controller only guarantees `1 ≤ page`
(established by the button handlers); applying a fetched result
(`setDocuments` / `setTotal`) never changes the page, so when `total`
shrinks the current page is retained even when it exceeds
`ceil(total / pageSize)`, and the upper bound is enforced only as the
Next button's disabled condition at click time. -/
theorem c4_page_retained_not_clamped (evs : List ListEvent) (k t : Nat) :
    1 ≤ (listRun evs).page ∧
    (listStep (listRun evs) (.applyList k t)).page = (listRun evs).page :=
  ⟨listRun_page_ge_one evs, rfl⟩

/-! ## Strings as character lists, with JavaScript semantics -/

/-- The whitespace characters relevant to JavaScript
`String.prototype.trim` in the inputs under consideration. -/
def isJsSpace (c : Char) : Bool :=
  c == ' ' || c == '\t' || c == '\n' || c == '\r'

/-- JavaScript `String.prototype.trim`: strip leading and trailing
whitespace. -/
def jsTrim (l : List Char) : List Char :=
  ((l.dropWhile isJsSpace).reverse.dropWhile isJsSpace).reverse

/-! ## Delete action (document detail page, `handleDelete`) -/

/-- The client error taxonomy (spec §7). -/
inductive ApiError : Type
  | validationError
  | conflictError
  | notFoundError
  | transportError
deriving DecidableEq, Repr

/-- Remote outcome of a delete request for a document id. -/
inductive DeleteOutcome : Type
  | deleted
  | missing
  | networkFailure
deriving DecidableEq, Repr

/-- Modelled from the spec: `apiClient.deleteDocument` lives in
`frontend/src/lib/api-client.ts`, which is not among the reviewed source
files (the detail page only imports and calls it).  Per the spec (§4.2
Delete row and §7 propagation policy), a `NotFoundError` on delete — the
document no longer exists, e.g. a double delete — is treated by the client
as already-achieved success and is not propagated to the caller; transport
failures are raised as errors. -/
def deleteDocument : DeleteOutcome → Except ApiError Unit
  | .deleted => .ok ()
  | .missing => .ok ()
  | .networkFailure => .error .transportError

/-- What the detail view does after a delete attempt. -/
inductive DeleteUiResult : Type
  | redirectedToDocumentsList
  | errorShown (e : ApiError)
deriving DecidableEq, Repr

/-- `handleDelete` from the detail page: after the confirm dialog (early
return on cancel), awaits `apiClient.deleteDocument(id)`; on normal return
navigates away via `router.push("/documents")`; on an exception calls
`setError(err.message)` and stays. -/
def handleDelete (confirmAccepted : Bool) (o : DeleteOutcome) :
    Option DeleteUiResult :=
  if !confirmAccepted then none
  else
    match deleteDocument o with
    | .ok _ => some .redirectedToDocumentsList
    | .error e => some (.errorShown e)

/-! ## Claim C5 -/

/-- C5.  Deleting a document that no longer exists is treated as success:
no error is surfaced and the observer is redirected to the documents list,
exactly as on a successful delete.  (The branch deciding this sits in the
api client, which is not among the reviewed files; it is modelled from the
spec, see `deleteDocument`.) -/
theorem c5_delete_not_found_is_success :
    handleDelete true .missing = some .redirectedToDocumentsList ∧
    handleDelete true .missing = handleDelete true .deleted := by
  decide

/-! ## Resolve-alert confirmation (document detail page) -/

/-- Outcome of a resolve attempt: either the early return — before any
network call and before any state mutation — or a
`resolveAlert(id, notes)` request carrying the untrimmed notes. -/
inductive ResolveAction : Type
  | noRequest
  | request (id : Nat) (notes : List Char)
deriving DecidableEq, Repr

/-- `handleResolveAlert` from the detail page:
`if (!resolvingId || !resolutionNotes.trim()) return;` — a null id or
notes that trim to the empty string abort before the network call and
before any `setState`; otherwise
`apiClient.resolveAlert(resolvingId, resolutionNotes)` is sent. -/
def handleResolveAlert (resolvingId : Option Nat) (notes : List Char) :
    ResolveAction :=
  match resolvingId with
  | none => .noRequest
  | some i => if jsTrim notes = [] then .noRequest else .request i notes

/-- The resolve modal's confirm button is disabled exactly when the notes
trim to the empty string (`disabled={!resolutionNotes.trim()}`). -/
def confirmDisabled (notes : List Char) : Bool :=
  (jsTrim notes).isEmpty

/-! ## Claim C6 -/

/-- C6.  A resolve attempt whose notes are empty or whitespace-only after
trimming is rejected client-side: `handleResolveAlert` returns before any
network call is issued and before any state changes, and the confirm
button that triggers it is disabled anyway. -/
theorem c6_empty_notes_rejected_without_network (resolvingId : Option Nat)
    (notes : List Char) (h : jsTrim notes = []) :
    handleResolveAlert resolvingId notes = .noRequest ∧
    confirmDisabled notes = true := by
  cases resolvingId <;> simp [handleResolveAlert, confirmDisabled, h]

/-- C6, witness: whitespace-only notes are rejected at a concrete input. -/
theorem c6_empty_notes_rejected_without_network_witness :
    handleResolveAlert (some 7) [' ', '\t'] = .noRequest ∧
    confirmDisabled [' ', '\t'] = true :=
  c6_empty_notes_rejected_without_network (some 7) [' ', '\t'] (by decide)

/-! ## Alerts page resolve (src/frontend/src/app/alerts/page.tsx) -/

/-- The fixed notes string hard-coded in the alerts page's `handleResolve`. -/
def alertsResolutionNotes : List Char :=
  "Manually reviewed and resolved.".data

/-- `handleResolve` from the alerts page: sends
`apiClient.resolveAlert(id, "Manually reviewed and resolved.")`. -/
def alertsHandleResolve (i : Nat) : ResolveAction :=
  .request i alertsResolutionNotes

/-- The two controls of an alert card. -/
inductive AlertButton : Type
  | dismissButton
  | resolveButton
deriving DecidableEq, Repr

/-- Both the Dismiss and the Resolve button invoke
`handleResolve(alert.id)` (alerts page lines 166-179). -/
def alertsButtonAction : AlertButton → Nat → ResolveAction
  | .dismissButton, i => alertsHandleResolve i
  | .resolveButton, i => alertsHandleResolve i

/-! ## Claim C9 -/

/-- C9.  Every resolve initiated from the alerts page — via Dismiss or via
Resolve — sends the request with the fixed notes
"Manually reviewed and resolved."; the constant is non-empty after
trimming, so the empty-notes rejection guard (the one the detail page
applies to operator-typed notes) can never fire on it: fed through that
guard, the constant always yields a request. -/
theorem c9_alerts_resolve_constant_notes (b : AlertButton) (i : Nat) :
    alertsButtonAction b i = .request i alertsResolutionNotes ∧
    jsTrim alertsResolutionNotes ≠ [] ∧
    handleResolveAlert (some i) alertsResolutionNotes
      = .request i alertsResolutionNotes := by
  refine ⟨?_, by decide, ?_⟩
  · cases b <;> rfl
  · simp only [handleResolveAlert]
    rw [if_neg (by decide)]

/-! ## Semantic search (src/frontend/src/app/search/page.tsx) -/

/-- A search hit as displayed: only identity and the ranking score matter
to the ordering claim (filename, type, page number and chunk text are
carried through unchanged by the view). -/
structure SearchResult where
  document_id : Nat
  similarity_score : ℚ
deriving DecidableEq, Repr

/-- Descending order by similarity score. -/
def sortedByScoreDesc : List SearchResult → Bool
  | x :: y :: rest =>
    decide (y.similarity_score ≤ x.similarity_score)
      && sortedByScoreDesc (y :: rest)
  | _ => true

/-- `handleSearch` from the search page: `if (!query.trim()) return;` —
an empty-after-trim query returns before any state change and before the
network call; otherwise `apiClient.search({ query })` is issued and its
result applied verbatim by `setResults(data.results)`, with no client-side
re-sorting.  `none` models the early return (no request issued), `some rs`
the displayed results of an issued request. -/
def handleSearch (query : List Char) (backendResults : List SearchResult) :
    Option (List SearchResult) :=
  if jsTrim query = [] then none else some backendResults

/-! ## Claim C8 -/

/-- C8.  An empty or whitespace-only query is rejected without a network
request; a non-empty query displays exactly the backend's result list, so
whenever the backend returns results sorted by descending similarity score,
the displayed list is sorted the same way — the client never re-sorts. -/
theorem c8_search_guard_and_no_resort (query : List Char)
    (backendResults : List SearchResult) :
    (jsTrim query = [] → handleSearch query backendResults = none) ∧
    (jsTrim query ≠ [] →
      handleSearch query backendResults = some backendResults ∧
      (sortedByScoreDesc backendResults = true →
        ∀ rs, handleSearch query backendResults = some rs →
          sortedByScoreDesc rs = true)) := by
  by_cases h : jsTrim query = []
  · refine ⟨fun _ => ?_, fun hne => absurd h hne⟩
    simp [handleSearch, h]
  · refine ⟨fun he => absurd he h, fun _ => ⟨?_, ?_⟩⟩
    · simp [handleSearch, h]
    · intro hsorted rs hrs
      simp only [handleSearch, if_neg h, Option.some.injEq] at hrs
      rw [← hrs]
      exact hsorted

/-- C8, witness: a whitespace query issues nothing; the reference query
displays the backend's descending-by-score list unchanged. -/
theorem c8_search_guard_and_no_resort_witness :
    handleSearch "   ".data [] = none ∧
    handleSearch "total net income Q3".data [⟨1, 1⟩, ⟨2, 0⟩]
      = some [⟨1, 1⟩, ⟨2, 0⟩] ∧
    sortedByScoreDesc [⟨1, 1⟩, ⟨2, 0⟩] = true :=
  ⟨(c8_search_guard_and_no_resort "   ".data []).1 (by decide),
   ((c8_search_guard_and_no_resort "total net income Q3".data
      [⟨1, 1⟩, ⟨2, 0⟩]).2 (by decide)).1,
   ((c8_search_guard_and_no_resort "total net income Q3".data
      [⟨1, 1⟩, ⟨2, 0⟩]).2 (by decide)).2 (by decide)
     [⟨1, 1⟩, ⟨2, 0⟩] (by decide)⟩

/-! ## Audit report export (document detail page, `handleExportReport`) -/

/-- JavaScript `String.prototype.split` with a one-character separator:
`"".split(sep)` is `[""]`, and separators at the ends produce empty
segments. -/
def jsSplit (sep : Char) : List Char → List (List Char)
  | [] => [[]]
  | c :: cs =>
    let r := jsSplit sep cs
    if c = sep then [] :: r
    else
      match r with
      | [] => [[c]]
      | h :: t => (c :: h) :: t

/-- `document.original_filename.split('.')[0]` as used in the download name
at page.tsx line 65. -/
def firstDotSegment (l : List Char) : List Char :=
  (jsSplit '.' l).headD []

/-- The download file name built by `handleExportReport`:
`Audit-Report-${original_filename.split('.')[0]}-${date}.json`, where
`date` is `new Date().toISOString().split('T')[0]` (the ISO-8601 date). -/
def exportFileName (filename date : List Char) : List Char :=
  "Audit-Report-".data ++ firstDotSegment filename
    ++ "-".data ++ date ++ ".json".data

/-- Following the spec's words, for the refinement comparison: "the
document's original filename without its extension" — the name with its
final dot-suffix removed when it contains a dot, the whole name
otherwise. -/
def specFilenameStem (l : List Char) : List Char :=
  if ('.' : Char) ∈ l then
    ((l.reverse.dropWhile (fun c => c ≠ '.')).drop 1).reverse
  else l

/-- The artifact name the claim specifies:
`Audit-Report-<filename-without-extension>-<ISO-8601 date>.json`. -/
def specExportFileName (filename date : List Char) : List Char :=
  "Audit-Report-".data ++ specFilenameStem filename
    ++ "-".data ++ date ++ ".json".data

theorem jsSplit_ne_nil (sep : Char) (l : List Char) : jsSplit sep l ≠ [] := by
  cases l with
  | nil => simp [jsSplit]
  | cons c cs =>
    simp only [jsSplit]
    split
    · simp
    · cases jsSplit sep cs <;> simp

theorem jsSplit_headD (sep : Char) (l : List Char) :
    (jsSplit sep l).headD [] = l.takeWhile (fun c => c ≠ sep) := by
  induction l with
  | nil => rfl
  | cons c cs ih =>
    simp only [jsSplit]
    by_cases hc : c = sep
    · rw [if_pos hc]
      simp [List.takeWhile_cons, hc]
    · rw [if_neg hc]
      cases hr : jsSplit sep cs with
      | nil => exact absurd hr (jsSplit_ne_nil sep cs)
      | cons h t =>
        rw [hr] at ih
        simp only [List.headD] at ih ⊢
        simp [List.takeWhile_cons, hc, ih]

theorem takeWhile_eq_self_of_not_mem (sep : Char) (l : List Char)
    (h : sep ∉ l) : l.takeWhile (fun c => c ≠ sep) = l := by
  induction l with
  | nil => rfl
  | cons c cs ih =>
    simp only [List.mem_cons, not_or] at h
    have hc : c ≠ sep := fun hh => h.1 hh.symm
    rw [List.takeWhile_cons, if_pos (by simp [hc]), ih h.2]

theorem takeWhile_append_sep (sep : Char) (x y : List Char) (h : sep ∉ x) :
    (x ++ sep :: y).takeWhile (fun c => c ≠ sep) = x := by
  induction x with
  | nil => simp [List.takeWhile_cons]
  | cons c cs ih =>
    simp only [List.mem_cons, not_or] at h
    have hc : c ≠ sep := fun hh => h.1 hh.symm
    rw [List.cons_append, List.takeWhile_cons, if_pos (by simp [hc]), ih h.2]

theorem dropWhile_append_sep (sep : Char) (x y : List Char) (h : sep ∉ x) :
    (x ++ sep :: y).dropWhile (fun c => c ≠ sep) = sep :: y := by
  induction x with
  | nil => simp [List.dropWhile_cons]
  | cons c cs ih =>
    simp only [List.mem_cons, not_or] at h
    have hc : c ≠ sep := fun hh => h.1 hh.symm
    rw [List.cons_append, List.dropWhile_cons, if_pos (by simp [hc]), ih h.2]

theorem specFilenameStem_append (a b : List Char)
    (hb : ('.' : Char) ∉ b) : specFilenameStem (a ++ '.' :: b) = a := by
  have hmem : ('.' : Char) ∈ a ++ '.' :: b := by simp
  unfold specFilenameStem
  rw [if_pos hmem, List.reverse_append, List.reverse_cons, List.append_assoc,
    List.singleton_append,
    dropWhile_append_sep '.' b.reverse a.reverse (by rwa [List.mem_reverse]),
    List.drop_one, List.tail_cons, List.reverse_reverse]

/-! ## Claim C7 -/

/-- C7, counterexample.  `split('.')[0]` keeps only the text before the
FIRST dot, not the filename without its extension: for the original
filename "2024.Q3.pdf" and date 2026-10-12, the produced artifact is named
`Audit-Report-2024-2026-10-12.json`, while the claim requires
`Audit-Report-2024.Q3-2026-10-12.json`. -/
theorem c7_counterexample_multi_dot_filename :
    exportFileName "2024.Q3.pdf".data "2026-10-12".data
      ≠ specExportFileName "2024.Q3.pdf".data "2026-10-12".data ∧
    exportFileName "2024.Q3.pdf".data "2026-10-12".data
      = "Audit-Report-2024-2026-10-12.json".data ∧
    specExportFileName "2024.Q3.pdf".data "2026-10-12".data
      = "Audit-Report-2024.Q3-2026-10-12.json".data := by
  decide

/-- C7, amended.  The artifact is named
`"Audit-Report-" + (the original filename truncated at its first dot) +
"-" + date + ".json"`; this coincides with the claimed
filename-without-extension exactly when the filename contains at most one
dot (the common case), and drops everything after the first dot
otherwise. -/
theorem c7_export_filename_amended (f date : List Char)
    (h : f.count '.' ≤ 1) :
    exportFileName f date = specExportFileName f date := by
  unfold exportFileName specExportFileName firstDotSegment
  by_cases hm : ('.' : Char) ∈ f
  · obtain ⟨a, b, hab⟩ := List.append_of_mem hm
    subst hab
    have hcnt : (a ++ '.' :: b).count '.' = a.count '.' + (b.count '.' + 1) := by
      rw [List.count_append, List.count_cons_self]
    have ha : ('.' : Char) ∉ a := by
      rw [← List.count_eq_zero]
      omega
    have hb : ('.' : Char) ∉ b := by
      rw [← List.count_eq_zero]
      omega
    rw [jsSplit_headD, takeWhile_append_sep '.' a b ha,
      specFilenameStem_append a b hb]
  · rw [jsSplit_headD, takeWhile_eq_self_of_not_mem '.' f hm]
    unfold specFilenameStem
    rw [if_neg hm]

/-- C7, witness for the amended theorem: a single-dot filename, where the
produced name and the specified name agree. -/
theorem c7_export_filename_amended_witness :
    exportFileName "report.pdf".data "2026-10-12".data
      = specExportFileName "report.pdf".data "2026-10-12".data :=
  c7_export_filename_amended "report.pdf".data "2026-10-12".data (by decide)

end FinSight
